import Mathlib

/-!
# Shallow embedding of the `toolkit` Go package (tool.go)

Each definition in this file mirrors a function, type or literal from
`tool.go` of the `toolkit` package.  Nondeterministic inputs of the Go code
(the PCG random word stream, decoder error outcomes, filesystem I/O results,
pointer renderings) are made explicit parameters, so every definition is an
executable Lean function.
-/

namespace Toolkit

/-- The byte slice `randStrBytes` from tool.go:
`"abcdefghijklmnopqrstuvwxyzABCDEFGHIJKLMNOPQRSTUVWXYZ0123456789_"`. -/
def randStrBytes : List Char :=
  "abcdefghijklmnopqrstuvwxyzABCDEFGHIJKLMNOPQRSTUVWXYZ0123456789_".toList

/-- The length `randStrLen = len(randStrBytes)` from tool.go. -/
def randStrLen : Nat := randStrBytes.length

/-- The constant `defaultMaxFileSize = 1024 * 1024 * 1024` from tool.go. -/
def defaultMaxFileSize : Int := 1024 * 1024 * 1024

/-- The `Tools` struct from tool.go.  Go `int` fields are embedded as `Int`. -/
structure Tools where
  MaxFileSize : Int := 0
  AllowedFileTypes : List String := []
  MaxJSONSize : Int := 0
  JSONAllowUnknownFields : Bool := false
deriving Repr, DecidableEq

/-- The iterations of the `RandomString` loop (tool.go lines 52-68) that
consume the current random word: `bits` is the count of unused bits in
`val`, `need` the number of characters still to produce, `acc` the produced
characters in reverse.  While `need > 0` and at least 6 bits remain, the low
6 bits of `val` give an index; index 63 is rejected and retried, any other
index appends `randStrBytes[idx]`.  Returns the remaining `need` and the
accumulator when the word is spent (`bits < 6`, the Go refill condition) or
`need` reaches 0. -/
def wordLoop : Nat → Nat → Nat → List Char → Nat × List Char
  | b + 6, val, need + 1, acc =>
    let idx := val % 64
    if idx = 63 then wordLoop b (val / 64) (need + 1) acc
    else wordLoop b (val / 64) need (randStrBytes.getD idx 'a' :: acc)
  | _ + 6, _, 0, acc => (0, acc)
  | _, _, need, acc => (need, acc)

/-- The refill structure of the `RandomString` loop: `words` is the stream of
successive `rng.Uint64()` outputs (the PCG draws, made an explicit input).
Whenever fewer than 6 unused bits remain and characters are still needed,
`val` is refilled from the stream with `bits = 64` (tool.go lines 53-56) and
consumption continues via `wordLoop`.  Returns `none` when the word stream is
exhausted (the Go code would keep drawing from the generator). -/
def randomStringLoop : List Nat → Nat → Nat → Nat → List Char → Option (List Char)
  | words, val, bits, need, acc =>
    match wordLoop bits val need acc, words with
    | (0, acc'), _ => some acc'.reverse
    | (_ + 1, _), [] => none
    | (need' + 1, acc'), w :: ws => randomStringLoop ws w 64 (need' + 1) acc'

/-- Method `Tools.RandomString` from tool.go, with the stream of `rng.Uint64()`
outputs as an explicit argument.  `n <= 0` returns the empty string; otherwise
the loop runs starting from `val = 0`, `bits = 0` (so it refills first).
`none` models the Go code blocking on more random draws than `words` holds. -/
def RandomString (words : List Nat) (n : Int) : Option String :=
  if n ≤ 0 then some ""
  else (randomStringLoop words 0 0 n.toNat []).map fun cs => String.mk cs

/-- A character matched by the slug regexp character class `[a-z\d]`
(lowercase ASCII letter or ASCII digit). -/
def isSlugChar (c : Char) : Bool :=
  ('a' ≤ c && c ≤ 'z') || ('0' ≤ c && c ≤ '9')

/-- ASCII lowercasing of one character, the effect of Go `strings.ToLower`
on each ASCII character (the full Unicode simple case mappings of
`strings.ToLower` on non-ASCII characters are elided). -/
def goToLower (c : Char) : Char :=
  if 'A' ≤ c && c ≤ 'Z' then Char.ofNat (c.toNat + 32) else c

/-- Semantics of `re.ReplaceAllString(s, "-")` for `re = [^a-z\d]+`:
every maximal run of characters outside `[a-z0-9]` becomes a single `'-'`. -/
def collapseGo : Bool → List Char → List Char
  | _, [] => []
  | inRun, c :: cs =>
    if isSlugChar c then c :: collapseGo false cs
    else if inRun then collapseGo true cs
    else '-' :: collapseGo true cs

/-- Function `collapseGo` started outside a run: the full replacement pass. -/
def collapseNonSlug (l : List Char) : List Char := collapseGo false l

/-- Semantics of Go `strings.Trim(s, "-")`: drop leading and trailing `'-'`. -/
def trimDash (l : List Char) : List Char :=
  ((l.dropWhile fun c => c == '-').reverse.dropWhile fun c => c == '-').reverse

/-- Method `Tools.Slugify` from tool.go.  The receiver is unused by the Go method, so
it is dropped.  The error strings are the exact Go messages. -/
def Slugify (s : String) : Except String String :=
  if s.length = 0 then .error "string should not be empty"
  else
    let slug := String.mk (trimDash (collapseNonSlug (s.toList.map goToLower)))
    if slug.length = 0 then .error "given string produces empty slug"
    else .ok slug

/-- The `UploadedFile` struct from tool.go. -/
structure UploadedFile where
  NewFileName : String
  OriginalFileName : String
  FileSize : Int
deriving Repr, DecidableEq

/-- One file part of the parsed multipart form (one `hdr` of
`r.MultipartForm.File`), together with the outcomes of the I/O steps the Go
code performs on it.  `sniffedType` is the result of
`http.DetectContentType` on the part's first 512 bytes; `size` is the byte
count `io.Copy` reports on success.  Each `…Err` field injects the error
message of the corresponding fallible call (`none` = that call succeeds). -/
structure FilePart where
  filename : String
  sniffedType : String
  size : Int
  openErr : Option String := none
  readErr : Option String := none
  seekErr : Option String := none
  createErr : Option String := none
  copyErr : Option String := none
deriving Repr, DecidableEq

/-- Go `filepath.Ext`: the suffix of the name starting at its final dot
(after the last slash); empty when there is no such dot. -/
def goExt (name : String) : String :=
  let rev := name.toList.reverse
  let pre := rev.takeWhile fun c => !(c == '.') && !(c == '/')
  match (rev.drop pre.length).head? with
  | some '.' => String.mk ('.' :: pre.reverse)
  | _ => ""

/-- Go `strings.EqualFold` restricted to its effect on ASCII: the strings are
equal under ASCII case folding (Unicode simple folding on non-ASCII
characters is elided). -/
def eqFold (a b : String) : Bool :=
  a.toList.map goToLower == b.toList.map goToLower

/-- The allow-list check of `UploadFiles` (tool.go lines 131-143): with a
non-empty `AllowedFileTypes` the sniffed type must `EqualFold`-match one
entry; an empty list accepts everything. -/
def isAllowedType (allowed : List String) (fileType : String) : Bool :=
  if allowed.length > 0 then allowed.any fun t => eqFold fileType t
  else true

/-- The body of the per-part anonymous function in `UploadFiles` (tool.go
lines 116-181), on one part: open, sniff-read, allow-list check, seek,
destination-name computation (`token` is the `t.RandomString(25)` draw for
this part), create, copy.  Returns the `UploadedFile` record or the first
error, in the order the Go code checks them. -/
def processPart (t : Tools) (renameFile : Bool) (token : String) (p : FilePart) :
    Except String UploadedFile :=
  match p.openErr with
  | some e => .error e
  | none =>
    match p.readErr with
    | some e => .error e
    | none =>
      if !isAllowedType t.AllowedFileTypes p.sniffedType then
        .error "uploaded file type is not permitted"
      else
        match p.seekErr with
        | some e => .error e
        | none =>
          let newName := if renameFile then token ++ goExt p.filename else p.filename
          match p.createErr with
          | some e => .error e
          | none =>
            match p.copyErr with
            | some e => .error e
            | none =>
              .ok { NewFileName := newName
                    OriginalFileName := p.filename
                    FileSize := p.size }

/-- The first error `processPart` reports for a part, independent of the
rename mode and token (those only affect the destination name): the open error,
else the read error, else the allow-list rejection, else the seek, create
and copy errors in order; `none` when the part persists. -/
def partError (allowed : List String) (p : FilePart) : Option String :=
  match p.openErr with
  | some e => some e
  | none =>
    match p.readErr with
    | some e => some e
    | none =>
      if !isAllowedType allowed p.sniffedType then
        some "uploaded file type is not permitted"
      else
        match p.seekErr with
        | some e => some e
        | none =>
          match p.createErr with
          | some e => some e
          | none => p.copyErr

/-- The part loop of `UploadFiles` (tool.go lines 114-186).  `tokens` is the
stream of `t.RandomString(25)` draws, one consumed per part.  On success the
anonymous function returns the extended slice; on error it returns `nil`,
and since the Go code assigns its result back to `uploadedFiles` before
`return uploadedFiles, err`, the accumulated records are replaced by the
empty slice when a part fails. -/
def uploadLoop (t : Tools) (renameFile : Bool) :
    List String → List FilePart → List UploadedFile →
    List UploadedFile × Option String
  | _, [], acc => (acc, none)
  | tokens, p :: ps, acc =>
    match processPart t renameFile (tokens.headD "") p with
    | .error e => ([], some e)
    | .ok f => uploadLoop t renameFile tokens.tail ps (acc ++ [f])

/-- The parsed multipart request as `UploadFiles` consumes it:
`parseErr` is whether `r.ParseMultipartForm` failed, `parts` the file parts
in the order the form iteration yields them. -/
structure MultipartRequest where
  parseErr : Bool := false
  parts : List FilePart := []
deriving Repr, DecidableEq

/-- Method `Tools.UploadFiles` from tool.go.  Explicit inputs stand for the
environment: `dirResult` is the outcome of `t.CreateDirIfNotExists uploadDir`
on the filesystem, `tokens` the stream of `t.RandomString(25)` draws,
`rename` the Go variadic `rename ...bool` (default `true`).  The method
mutates its receiver when `MaxFileSize` is 0, so it returns the updated
`Tools` alongside the Go results `([]*UploadedFile, error)`. -/
def UploadFiles (t : Tools) (r : MultipartRequest) (dirResult : Option String)
    (tokens : List String) (rename : List Bool) :
    Tools × (List UploadedFile × Option String) :=
  let renameFile := rename.headD true
  let t := if t.MaxFileSize = 0 then { t with MaxFileSize := defaultMaxFileSize } else t
  if r.parseErr then (t, ([], some "uploaded file is too big"))
  else
    match dirResult with
    | some e => (t, ([], some e))
    | none => (t, uploadLoop t renameFile tokens r.parts [])

/-- Possible outcomes of `Tools.UploadFile`: a record, an error value, or a
Go runtime panic (an uncaught fault, not a returned value). -/
inductive UploadOneResult where
  | ok (f : UploadedFile)
  | err (e : String)
  | panic (msg : String)
deriving Repr, DecidableEq

/-- Method `Tools.UploadFile` from tool.go: delegates to `UploadFiles` and returns
`uploadedFiles[0]`.  Indexing `[0]` on an empty (nil) slice is a Go runtime
panic, modelled by the `panic` outcome. -/
def UploadFile (t : Tools) (r : MultipartRequest) (dirResult : Option String)
    (tokens : List String) (rename : List Bool) : Tools × UploadOneResult :=
  let res := UploadFiles t r dirResult tokens [rename.headD true]
  match res.2.2 with
  | some e => (res.1, .err e)
  | none =>
    match res.2.1 with
    | [] => (res.1, .panic "runtime error: index out of range [0] with length 0")
    | f :: _ => (res.1, .ok f)

/-- The Go error value produced by a `json.Decoder.Decode` call, as seen by
the matchers `ReadJSON` applies to it: `msg` is `err.Error()`;
`asSyntaxError` is `some offset` when `errors.As(err, &syntaxError)` succeeds;
`isUnexpectedEOF` is `errors.Is(err, io.ErrUnexpectedEOF)`; `asTypeError`
holds `(Field, Offset)` when `errors.As(err, &unmarshalTypeError)` succeeds;
`isEOF` is the `io.EOF` check; `asInvalidUnmarshal` is
`errors.As(err, &invalidUnmarshalError)`. -/
structure GoError where
  msg : String
  asSyntaxError : Option Int := none
  isUnexpectedEOF : Bool := false
  asTypeError : Option (String × Int) := none
  isEOF : Bool := false
  asInvalidUnmarshal : Bool := false
deriving Repr, DecidableEq

/-- The `%v` rendering by `fmt` of a `*string` value such as
`&unmarshalTypeError.Field`: a pointer that is not to a struct, array, slice
or map prints as its address, `"0x"` followed by lowercase hex digits. -/
def ptrRender (addr : Nat) : String :=
  "0x" ++ String.mk (Nat.toDigits 16 addr)

/-- Which branch of the `ReadJSON` error switch fired (tool.go lines
255-276), carrying what that branch puts into its message.  The Go code
returns freshly built error values; this type tags them, `RJError.render`
below gives the exact message text. -/
inductive RJError where
  | malformedAt (offset : Int)
  | malformed
  | typeMismatchField (fieldRender : String)
  | typeMismatchAt (offset : Int)
  | emptyBody
  | unknownKey (rest : String)
  | bodyTooLarge (maxBytes : Int)
  | invalidTarget (msg : String)
  | passThrough (msg : String)
  | multipleValues
deriving Repr, DecidableEq

/-- The exact error message text `ReadJSON` builds for each branch. -/
def RJError.render : RJError → String
  | .malformedAt off => "body contains badly formed JSON at character " ++ toString off
  | .malformed => "body contains badly formed JSON"
  | .typeMismatchField r => "body contains incorrect JSON type for field " ++ r
  | .typeMismatchAt off => "body contains incorrect JSON type at character " ++ toString off
  | .emptyBody => "body must not be empty"
  | .unknownKey rest => "body contains unknown key " ++ rest
  | .bodyTooLarge n => "body must not be larger than " ++ toString n ++ " bytes"
  | .invalidTarget msg => "error unmarshalling JSON: " ++ msg
  | .passThrough msg => msg
  | .multipleValues => "body must contain exactly one JSON object"

/-- The error switch of `ReadJSON` (tool.go lines 250-276), checked in
source order with the first matching case winning.  `fieldAddr` is the
runtime address of `unmarshalTypeError.Field`, whose `%v` rendering — not
the field name — the type-mismatch message embeds, because the Go code
formats `&unmarshalTypeError.Field` (a `*string`) with `%v`. -/
def mapDecodeErr (maxBytes : Int) (fieldAddr : Nat) (e : GoError) : RJError :=
  match e.asSyntaxError with
  | some off => .malformedAt off
  | none =>
    if e.isUnexpectedEOF then .malformed
    else
      match e.asTypeError with
      | some (field, off) =>
        if field ≠ "" then .typeMismatchField (ptrRender fieldAddr)
        else .typeMismatchAt off
      | none =>
        if e.isEOF then .emptyBody
        else if e.msg.startsWith "json: unknown field" then
          .unknownKey (e.msg.drop 19)
        else if e.msg == "http: request body too large" then .bodyTooLarge maxBytes
        else if e.asInvalidUnmarshal then .invalidTarget e.msg
        else .passThrough e.msg

/-- Method `Tools.ReadJSON` from tool.go.  The body reader is capped at `maxBytes`
(computed from `MaxJSONSize`, 0 meaning 1 MiB) by `http.MaxBytesReader`
before any decoding.  `firstDecode` is the outcome of `dec.Decode(data)`
(`none` = success), `secondDecode` the outcome of the trailing
`dec.Decode(&struct{}{})`; any second outcome other than `io.EOF` — including
a successful second decode — is the multiple-values error. -/
def ReadJSON (t : Tools) (fieldAddr : Nat) (firstDecode : Option GoError)
    (secondDecode : Option GoError) : Option RJError :=
  let maxBytes := if t.MaxJSONSize = 0 then 1024 * 1024 else t.MaxJSONSize
  match firstDecode with
  | some e => some (mapDecodeErr maxBytes fieldAddr e)
  | none =>
    match secondDecode with
    | some e2 => if e2.isEOF then none else some .multipleValues
    | none => some .multipleValues

/-- An `*http.Response` as far as this development observes it: its status
code and whether its body stream is still open (`Body.Close` sets it to
closed). -/
structure HTTPResponse where
  StatusCode : Int
  bodyOpen : Bool
deriving Repr, DecidableEq

/-- The `(*http.Response, int, error)` result of `PushJSONToRemote`. -/
inductive PushResult where
  | err (msg : String)
  | ok (resp : HTTPResponse) (status : Int)
deriving Repr, DecidableEq

/-- Method `Tools.PushJSONToRemote` from tool.go.  `marshalErr`, `newRequestErr` and
`doResult` are the outcomes of `json.Marshal`, `http.NewRequest` and
`httpClient.Do`.  On the success path the Go code runs
`defer response.Body.Close()`, and a deferred call executes before the
function returns — so the response handed back to the caller has its body
already closed. -/
def PushJSONToRemote (marshalErr : Option String) (newRequestErr : Option String)
    (doResult : Except String HTTPResponse) : PushResult :=
  match marshalErr with
  | some e => .err e
  | none =>
    match newRequestErr with
    | some e => .err e
    | none =>
      match doResult with
      | .error e => .err e
      | .ok response => .ok { response with bodyOpen := false } response.StatusCode

/-- The UTF-8 encoding of one character as its list of byte values (Go
strings are byte strings; `url.QueryEscape` works byte by byte). -/
def utf8EncodeChar (c : Char) : List Nat :=
  let n := c.toNat
  if n < 128 then [n]
  else if n < 2048 then [192 + n / 64, 128 + n % 64]
  else if n < 65536 then [224 + n / 4096, 128 + (n / 64) % 64, 128 + n % 64]
  else [240 + n / 262144, 128 + (n / 4096) % 64, 128 + (n / 64) % 64, 128 + n % 64]

/-- The byte values of a string's UTF-8 form. -/
def utf8Bytes (s : String) : List Nat :=
  s.toList.flatMap utf8EncodeChar

/-- Go `net/url.shouldEscape` returns false (keep the byte verbatim) exactly
for ASCII alphanumerics and `-`, `_`, `.`, `~`. -/
def queryUnreserved (b : Nat) : Bool :=
  (65 ≤ b && b ≤ 90) || (97 ≤ b && b ≤ 122) || (48 ≤ b && b ≤ 57) ||
    b == 45 || b == 95 || b == 46 || b == 126

/-- The hex digits `"0123456789ABCDEF"` Go's URL escaping uses. -/
def upperHexDigit (n : Nat) : Char :=
  if n < 10 then Char.ofNat (48 + n) else Char.ofNat (55 + n)

/-- How `url.QueryEscape` emits one byte: space becomes `'+'`, unreserved
bytes pass through, every other byte becomes `%XX` with uppercase hex. -/
def queryEscapeByte (b : Nat) : List Char :=
  if b == 32 then ['+']
  else if queryUnreserved b then [Char.ofNat b]
  else ['%', upperHexDigit (b / 16), upperHexDigit (b % 16)]

/-- Go `url.QueryEscape`. -/
def QueryEscape (s : String) : String :=
  String.mk ((utf8Bytes s).flatMap queryEscapeByte)

/-- Modelled from the spec: the "percent-encoded" form of a name —
percent-encoding proper, in which every byte outside the unreserved set,
the space included, becomes `%XX`; written to compare against the
`url.QueryEscape` call the source makes. -/
def specPercentEncodeByte (b : Nat) : List Char :=
  if queryUnreserved b then [Char.ofNat b]
  else ['%', upperHexDigit (b / 16), upperHexDigit (b % 16)]

/-- Modelled from the spec: percent-encoding of a whole string (see
`specPercentEncodeByte`). -/
def specPercentEncode (s : String) : String :=
  String.mk ((utf8Bytes s).flatMap specPercentEncodeByte)

/-- Go `filepath.Join` on two nonempty segments inserts a single separator
(its additional `Clean` normalization of redundant separators is elided). -/
def goPathJoin (a b : String) : String :=
  if a = "" then b else if b = "" then a else a ++ "/" ++ b

/-- What `DownloadStaticFile` does to the response: the header it sets and
the file path it then streams via `http.ServeFile`. -/
structure StaticFileResponse where
  contentDisposition : String
  servedPath : String
deriving Repr, DecidableEq

/-- Method `Tools.DownloadStaticFile` from tool.go: sets `Content-Disposition` to
`attachment; filename="<url.QueryEscape displayName>"`, then serves
`filepath.Join path fileName`. -/
def DownloadStaticFile (path fileName displayName : String) : StaticFileResponse :=
  { contentDisposition := "attachment; filename=\"" ++ QueryEscape displayName ++ "\""
    servedPath := goPathJoin path fileName }

/-! ## Lemmas about the random-string generator -/

theorem randStrBytes_length : randStrBytes.length = 63 := by decide

/-- Any character the alphabet lookup yields is in the alphabet. -/
theorem getD_randStrBytes_mem (idx : Nat) (h : idx < 63) :
    randStrBytes.getD idx 'a' ∈ randStrBytes := by
  have hidx' : idx < randStrBytes.length := by rw [randStrBytes_length]; exact h
  rw [List.getD_eq_getElem randStrBytes 'a' hidx']
  exact List.getElem_mem hidx'

/-- The inner loop `wordLoop` consumes exactly as many `need` units as it appends
characters, and every appended character is from `randStrBytes`. -/
theorem wordLoop_spec :
    ∀ (bits val need : Nat) (acc : List Char),
      (∀ c ∈ acc, c ∈ randStrBytes) →
      ∀ need' acc', wordLoop bits val need acc = (need', acc') →
        acc'.length + need' = acc.length + need ∧ ∀ c ∈ acc', c ∈ randStrBytes := by
  intro bits val need acc
  induction bits, val, need, acc using wordLoop.induct with
  | case1 b val need acc idx hidx ih =>
    intro hacc need' acc' h
    rw [wordLoop] at h
    simp only [if_pos hidx] at h
    exact ih hacc need' acc' h
  | case2 b val need acc idx hidx ih =>
    intro hacc need' acc' h
    rw [wordLoop] at h
    simp only [if_neg hidx] at h
    have hmem : randStrBytes.getD idx 'a' ∈ randStrBytes := by
      apply getD_randStrBytes_mem
      have h64 : idx < 64 := Nat.mod_lt _ (by norm_num)
      omega
    have hacc' : ∀ c ∈ randStrBytes.getD idx 'a' :: acc, c ∈ randStrBytes := by
      intro c hc
      rcases List.mem_cons.mp hc with hcc | hcc
      · exact hcc ▸ hmem
      · exact hacc c hcc
    have := ih hacc' need' acc' h
    refine ⟨?_, this.2⟩
    have := this.1
    simp only [List.length_cons] at this
    omega
  | case3 b val acc =>
    intro hacc need' acc' h
    rw [wordLoop] at h
    cases h
    exact ⟨by omega, hacc⟩
  | case4 bits val need acc h1 h2 =>
    intro hacc need' acc' h
    rw [wordLoop] at h
    · cases h
      exact ⟨by omega, hacc⟩
    · exact h1
    · exact h2

/-- Every character the loop appends comes from `randStrBytes`, and exactly
`need` characters are appended. -/
theorem randomStringLoop_spec :
    ∀ (words : List Nat) (val bits need : Nat) (acc : List Char),
      (∀ c ∈ acc, c ∈ randStrBytes) →
      ∀ cs, randomStringLoop words val bits need acc = some cs →
        cs.length = need + acc.length ∧ ∀ c ∈ cs, c ∈ randStrBytes := by
  intro words
  induction words with
  | nil =>
    intro val bits need acc hacc cs hcs
    rcases hw : wordLoop bits val need acc with ⟨need', acc'⟩
    rw [randomStringLoop.eq_def] at hcs
    dsimp only at hcs
    rw [hw] at hcs
    cases need' with
    | zero =>
      simp only [Option.some.injEq] at hcs
      obtain ⟨hlen, hmem⟩ := wordLoop_spec bits val need acc hacc 0 acc' hw
      subst hcs
      refine ⟨by simp; omega, ?_⟩
      intro c hc
      exact hmem c (List.mem_reverse.mp hc)
    | succ need'' => simp at hcs
  | cons w ws ih =>
    intro val bits need acc hacc cs hcs
    rcases hw : wordLoop bits val need acc with ⟨need', acc'⟩
    rw [randomStringLoop.eq_def] at hcs
    dsimp only at hcs
    rw [hw] at hcs
    obtain ⟨hlen, hmem⟩ := wordLoop_spec bits val need acc hacc need' acc' hw
    cases need' with
    | zero =>
      simp only [Option.some.injEq] at hcs
      subst hcs
      refine ⟨by simp; omega, ?_⟩
      intro c hc
      exact hmem c (List.mem_reverse.mp hc)
    | succ need'' =>
      have := ih w 64 (need'' + 1) acc' hmem cs hcs
      refine ⟨by omega, this.2⟩

/-- Claim C4 is false as stated: the fixed alphabet of `RandomString` —
the distinct characters of `randStrBytes`, which are exactly the lowercase
letters, uppercase letters, digits and underscore — has 63 characters,
not 64. -/
theorem C4_counterexample :
    randStrBytes.Nodup ∧
    (∀ c ∈ randStrBytes,
      ('a' ≤ c ∧ c ≤ 'z') ∨ ('A' ≤ c ∧ c ≤ 'Z') ∨ ('0' ≤ c ∧ c ≤ '9') ∨ c = '_') ∧
    randStrBytes.length = 63 ∧ ¬ randStrBytes.length = 64 := by
  refine ⟨by decide, by decide, by decide, by decide⟩

/-- Claim C4, amended: for every `n ≥ 1` and every stream of random words on
which the generator completes, `RandomString` returns a string of exactly `n`
characters, each drawn from the fixed 63-character alphabet `randStrBytes`
(lowercase letters, uppercase letters, digits, underscore); for every
`n ≤ 0` it returns the empty string. -/
theorem C4_random_string_contract (words : List Nat) (n : Int) :
    (n ≤ 0 → RandomString words n = some "") ∧
    (1 ≤ n → ∀ s, RandomString words n = some s →
      s.length = n.toNat ∧ ∀ c ∈ s.toList, c ∈ randStrBytes) := by
  constructor
  · intro hn
    simp [RandomString, hn]
  · intro hn s hs
    have hn0 : ¬ n ≤ 0 := by omega
    simp only [RandomString, if_neg hn0, Option.map_eq_some'] at hs
    obtain ⟨cs, hcs, hmk⟩ := hs
    have := randomStringLoop_spec words 0 0 n.toNat [] (by simp) cs hcs
    subst hmk
    constructor
    · simpa using this.1
    · simpa using this.2

/-- Witness for `C4_random_string_contract` at `words = [0]`, `n = 2`
(result `"aa"`) and at `n = -1`. -/
theorem C4_random_string_contract_witness :
    RandomString [0] (-1) = some "" ∧
    ("aa".length = ((2 : Int)).toNat ∧ ∀ c ∈ "aa".toList, c ∈ randStrBytes) := by
  constructor
  · exact (C4_random_string_contract [0] (-1)).1 (by norm_num)
  · exact (C4_random_string_contract [0] 2).2 (by norm_num) "aa" (by decide)

/-! ## Lemmas about Slugify -/

theorem head_dropWhile_false {α : Type} (p : α → Bool) :
    ∀ (l : List α) (x : α) (xs : List α), l.dropWhile p = x :: xs → p x = false := by
  intro l
  induction l with
  | nil => intro x xs h; simp [List.dropWhile] at h
  | cons c cs ih =>
    intro x xs h
    by_cases hc : p c = true
    · rw [List.dropWhile_cons_of_pos hc] at h
      exact ih x xs h
    · rw [List.dropWhile_cons_of_neg hc] at h
      cases h
      exact Bool.eq_false_iff.mpr hc

theorem getLast?_dropWhile {α : Type} (p : α → Bool) :
    ∀ l : List α, l.dropWhile p ≠ [] → (l.dropWhile p).getLast? = l.getLast? := by
  intro l
  induction l with
  | nil => intro h; simp [List.dropWhile] at h
  | cons c cs ih =>
    intro h
    by_cases hc : p c = true
    · rw [List.dropWhile_cons_of_pos hc] at h ⊢
      have hcs : cs ≠ [] := by
        intro hnil
        subst hnil
        simp [List.dropWhile] at h
      rw [ih h]
      cases cs with
      | nil => exact absurd rfl hcs
      | cons d ds => rw [List.getLast?_cons_cons]
    · rw [List.dropWhile_cons_of_neg hc]

theorem chain'_dropWhile {α : Type} {R : α → α → Prop} (p : α → Bool) :
    ∀ l : List α, List.Chain' R l → List.Chain' R (l.dropWhile p) := by
  intro l
  induction l with
  | nil => intro h; simp
  | cons c cs ih =>
    intro h
    by_cases hc : p c = true
    · rw [List.dropWhile_cons_of_pos hc]
      exact ih h.tail
    · rw [List.dropWhile_cons_of_neg hc]
      exact h

/-- Every character `collapseGo` emits is a slug character or `'-'`. -/
theorem mem_collapseGo :
    ∀ (b : Bool) (l : List Char) (c : Char),
      c ∈ collapseGo b l → isSlugChar c = true ∨ c = '-' := by
  intro b l
  induction l generalizing b with
  | nil => intro c h; simp [collapseGo] at h
  | cons d ds ih =>
    intro c h
    rw [collapseGo] at h
    by_cases hd : isSlugChar d = true
    · rw [if_pos hd] at h
      rcases List.mem_cons.mp h with hc | hc
      · exact Or.inl (hc ▸ hd)
      · exact ih false c hc
    · rw [if_neg hd] at h
      cases hrun : b with
      | true => rw [hrun] at h; simp only [if_pos rfl] at h; exact ih true c h
      | false =>
        rw [hrun] at h
        simp only [Bool.false_eq_true, if_neg] at h
        rcases List.mem_cons.mp h with hc | hc
        · exact Or.inr hc
        · exact ih true c hc

/-- When the scanner is inside a run, the next emitted character is a slug
character (never the run's `'-'`, which was already emitted). -/
theorem head_collapseGo_true :
    ∀ (l : List Char) (c : Char),
      (collapseGo true l).head? = some c → isSlugChar c = true := by
  intro l
  induction l with
  | nil => intro c h; simp [collapseGo] at h
  | cons d ds ih =>
    intro c h
    rw [collapseGo] at h
    by_cases hd : isSlugChar d = true
    · rw [if_pos hd] at h
      simp only [List.head?_cons, Option.some.injEq] at h
      exact h ▸ hd
    · rw [if_neg hd, if_pos rfl] at h
      exact ih c h

/-- No two adjacent characters of the replacement output are both `'-'`:
maximal runs collapse to a single dash. -/
theorem chain'_collapseGo :
    ∀ (l : List Char) (b : Bool),
      List.Chain' (fun a c => ¬(a = '-' ∧ c = '-')) (collapseGo b l) := by
  intro l
  induction l with
  | nil => intro b; simp [collapseGo]
  | cons d ds ih =>
    intro b
    rw [collapseGo]
    by_cases hd : isSlugChar d = true
    · rw [if_pos hd]
      refine List.chain'_cons'.mpr ⟨?_, ih false⟩
      intro y _hy
      intro ⟨hdash, _⟩
      rw [hdash] at hd
      simp [isSlugChar] at hd
    · rw [if_neg hd]
      cases b with
      | true => simp only [if_pos rfl]; exact ih true
      | false =>
        simp only [Bool.false_eq_true, if_neg]
        refine List.chain'_cons'.mpr ⟨?_, ih true⟩
        intro y hy
        intro ⟨_, hdash⟩
        have := head_collapseGo_true ds y hy
        rw [hdash] at this
        simp [isSlugChar] at this

/-- Characters of `trimDash l` come from `l`. -/
theorem mem_trimDash (l : List Char) (c : Char) (h : c ∈ trimDash l) : c ∈ l := by
  unfold trimDash at h
  have h1 := List.mem_reverse.mp h
  have h2 := (List.dropWhile_sublist _).subset h1
  have h3 := List.mem_reverse.mp h2
  exact (List.dropWhile_sublist _).subset h3

/-- The result of `trimDash` never starts with a dash. -/
theorem head?_trimDash (l : List Char) (c : Char)
    (h : (trimDash l).head? = some c) : (c == '-') = false := by
  unfold trimDash at h
  rw [List.head?_reverse] at h
  rcases hX : ((l.dropWhile fun c => c == '-').reverse.dropWhile fun c => c == '-') with _ | ⟨x, xs⟩
  · rw [hX] at h
    simp at h
  · rw [hX] at h
    have hne : ((l.dropWhile fun c => c == '-').reverse.dropWhile fun c => c == '-') ≠ [] := by
      rw [hX]; simp
    have hlast := getLast?_dropWhile (fun c => c == '-')
      (l.dropWhile fun c => c == '-').reverse hne
    rw [hX] at hlast
    rw [hlast, List.getLast?_reverse] at h
    rcases hY : l.dropWhile fun c => c == '-' with _ | ⟨y, ys⟩
    · rw [hY] at h
      simp at h
    · rw [hY] at h
      simp only [List.head?_cons, Option.some.injEq] at h
      have := head_dropWhile_false (fun c => c == '-') l y ys hY
      exact h ▸ this

/-- The result of `trimDash` never ends with a dash. -/
theorem getLast?_trimDash (l : List Char) (c : Char)
    (h : (trimDash l).getLast? = some c) : (c == '-') = false := by
  unfold trimDash at h
  rw [List.getLast?_reverse] at h
  rcases hX : ((l.dropWhile fun c => c == '-').reverse.dropWhile fun c => c == '-')
    with _ | ⟨x, xs⟩
  · rw [hX] at h
    simp at h
  · rw [hX] at h
    simp only [List.head?_cons, Option.some.injEq] at h
    have := head_dropWhile_false (fun c => c == '-')
      (l.dropWhile fun c => c == '-').reverse x xs hX
    exact h ▸ this

/-- Trimming preserves the no-adjacent-dashes property. -/
theorem chain'_trimDash (l : List Char)
    (h : List.Chain' (fun a c => ¬(a = '-' ∧ c = '-')) l) :
    List.Chain' (fun a c => ¬(a = '-' ∧ c = '-')) (trimDash l) := by
  unfold trimDash
  have hsym : ∀ (m : List Char),
      List.Chain' (fun a c => ¬(a = '-' ∧ c = '-')) m →
      List.Chain' (fun a c => ¬(a = '-' ∧ c = '-')) m.reverse := by
    intro m hm
    rw [List.chain'_reverse]
    exact hm.imp fun a c hac => fun ⟨h1, h2⟩ => hac ⟨h2, h1⟩
  exact hsym _ (chain'_dropWhile _ _ (hsym _ (chain'_dropWhile _ _ h)))

/-- Claim C5: `Slugify` is a pure deterministic function failing with the
empty-input error on the zero-length string; for non-empty input it
lowercases, replaces each maximal run of characters outside `[a-z0-9]` by a
single `'-'` and trims leading/trailing dashes, failing with the
empty-result error exactly when that transformation is empty; and the two
quoted examples hold.  Structurally: any successful slug is non-empty,
contains only `[a-z0-9]` characters and dashes, neither starts nor ends
with a dash, and never has two adjacent dashes. -/
theorem C5_slugify_contract (s r : String) :
    Slugify "" = .error "string should not be empty" ∧
    Slugify "a string" = .ok "a-string" ∧
    Slugify "a@%$%)string--$%($)" = .ok "a-string" ∧
    Slugify "&#^$%" = .error "given string produces empty slug" ∧
    (s ≠ "" →
      (Slugify s = .error "given string produces empty slug" ↔
        trimDash (collapseNonSlug (s.toList.map goToLower)) = [])) ∧
    (Slugify s = .ok r →
      r.toList ≠ [] ∧
      (∀ c ∈ r.toList, isSlugChar c = true ∨ c = '-') ∧
      (∀ c, r.toList.head? = some c → c ≠ '-') ∧
      (∀ c, r.toList.getLast? = some c → c ≠ '-') ∧
      List.Chain' (fun a c => ¬(a = '-' ∧ c = '-')) r.toList) := by
  refine ⟨rfl, rfl, rfl, rfl, ?_, ?_⟩
  · intro hs
    have hlen : ¬ s.length = 0 := by
      intro h0
      exact hs (String.ext (List.length_eq_zero.mp h0))
    rw [Slugify, if_neg hlen]
    constructor
    · intro h
      by_cases hm : trimDash (collapseNonSlug (s.toList.map goToLower)) = []
      · exact hm
      · exfalso
        rw [if_neg ?hcond] at h
        · exact Except.noConfusion h
        · show ¬ (String.mk (trimDash (collapseNonSlug (s.toList.map goToLower)))).length = 0
          intro hc
          exact hm (List.length_eq_zero.mp hc)
    · intro hm
      rw [hm]
      rfl
  · intro hok
    rw [Slugify] at hok
    by_cases hlen : s.length = 0
    · rw [if_pos hlen] at hok
      exact Except.noConfusion hok
    · rw [if_neg hlen] at hok
      by_cases hm : (String.mk (trimDash (collapseNonSlug (s.toList.map goToLower)))).length = 0
      · rw [if_pos hm] at hok
        exact Except.noConfusion hok
      · rw [if_neg hm] at hok
        have hr : r = String.mk (trimDash (collapseNonSlug (s.toList.map goToLower))) :=
          (Except.ok.injEq _ _ |>.mp hok.symm)
        have hrl : r.toList = trimDash (collapseNonSlug (s.toList.map goToLower)) := by
          rw [hr]
          rfl
        refine ⟨?_, ?_, ?_, ?_, ?_⟩
        · rw [hrl]
          intro hnil
          apply hm
          show (trimDash (collapseNonSlug (s.toList.map goToLower))).length = 0
          rw [hnil]
          rfl
        · intro c hc
          rw [hrl] at hc
          exact mem_collapseGo false _ c (mem_trimDash _ c hc)
        · intro c hc
          rw [hrl] at hc
          have := head?_trimDash _ c hc
          intro hdash
          rw [hdash] at this
          simp at this
        · intro c hc
          rw [hrl] at hc
          have := getLast?_trimDash _ c hc
          intro hdash
          rw [hdash] at this
          simp at this
        · rw [hrl]
          exact chain'_trimDash _ (chain'_collapseGo _ false)

/-- Witness for `C5_slugify_contract` at `s = "a string"`, `r = "a-string"`
(success case) and at `s = "&#^$%"` (empty-result case). -/
theorem C5_slugify_contract_witness :
    (Slugify "&#^$%" = .error "given string produces empty slug" ↔
      trimDash (collapseNonSlug ("&#^$%".toList.map goToLower)) = []) ∧
    ("a-string".toList ≠ [] ∧
      (∀ c ∈ "a-string".toList, isSlugChar c = true ∨ c = '-') ∧
      (∀ c, "a-string".toList.head? = some c → c ≠ '-') ∧
      (∀ c, "a-string".toList.getLast? = some c → c ≠ '-') ∧
      List.Chain' (fun a c => ¬(a = '-' ∧ c = '-')) "a-string".toList) := by
  constructor
  · exact (C5_slugify_contract "&#^$%" "x").2.2.2.2.1 (by decide)
  · exact (C5_slugify_contract "a string" "a-string").2.2.2.2.2 rfl

/-! ## Lemmas about the upload pipeline -/

/-- Lemma: `processPart` errors exactly as `partError` says, and succeeds with the
record built from the part when `partError` is `none`. -/
theorem processPart_partError (t : Tools) (rf : Bool) (tok : String) (p : FilePart) :
    (∀ e, partError t.AllowedFileTypes p = some e → processPart t rf tok p = .error e) ∧
    (partError t.AllowedFileTypes p = none →
      processPart t rf tok p = .ok
        { NewFileName := if rf then tok ++ goExt p.filename else p.filename
          OriginalFileName := p.filename
          FileSize := p.size }) := by
  rcases ho : p.openErr with _ | eo <;>
    rcases hr : p.readErr with _ | er <;>
      rcases hs : p.seekErr with _ | es <;>
        rcases hc : p.createErr with _ | ec <;>
          rcases hcp : p.copyErr with _ | ecp <;>
            by_cases ha : isAllowedType t.AllowedFileTypes p.sniffedType = true <;>
              simp +contextual [processPart, partError, ho, hr, hs, hc, hcp, ha]

/-- Whenever the part loop reports an error, the record slice it returns is
empty: the anonymous function's `nil` return overwrites the accumulator. -/
theorem uploadLoop_error_nil (t : Tools) (rf : Bool) :
    ∀ (parts : List FilePart) (tokens : List String) (acc res : List UploadedFile) (e : String),
      uploadLoop t rf tokens parts acc = (res, some e) → res = [] := by
  intro parts
  induction parts with
  | nil =>
    intro tokens acc res e h
    rw [uploadLoop] at h
    injection h with h1 h2
    exact Option.noConfusion h2
  | cons p ps ih =>
    intro tokens acc res e h
    rw [uploadLoop] at h
    rcases hp : processPart t rf (tokens.headD "") p with ep | f <;> rw [hp] at h
    · injection h with h1 h2
      exact h1.symm
    · exact ih tokens.tail (acc ++ [f]) res e h

/-- When every part of `pre` persists and `bad` fails, the loop returns the
empty slice with `bad`'s error, whatever parts follow — fail-fast with the
accumulated records discarded. -/
theorem uploadLoop_first_fail (t : Tools) (rf : Bool) (e : String) :
    ∀ (pre : List FilePart) (bad : FilePart) (post : List FilePart)
      (tokens : List String) (acc : List UploadedFile),
      (∀ q ∈ pre, partError t.AllowedFileTypes q = none) →
      partError t.AllowedFileTypes bad = some e →
      uploadLoop t rf tokens (pre ++ bad :: post) acc = ([], some e) := by
  intro pre
  induction pre with
  | nil =>
    intro bad post tokens acc _ hbad
    rw [List.nil_append, uploadLoop,
      (processPart_partError t rf (tokens.headD "") bad).1 e hbad]
  | cons q qs ih =>
    intro bad post tokens acc hpre hbad
    rw [List.cons_append, uploadLoop,
      (processPart_partError t rf (tokens.headD "") q).2 (hpre q (by simp))]
    exact ih bad post tokens.tail _ (fun x hx => hpre x (by simp [hx])) hbad

/-- The `Tools` value `UploadFiles` hands to its loop and returns. -/
theorem UploadFiles_fst (t : Tools) (r : MultipartRequest) (d : Option String)
    (toks : List String) (rn : List Bool) :
    (UploadFiles t r d toks rn).1
      = if t.MaxFileSize = 0 then { t with MaxFileSize := defaultMaxFileSize } else t := by
  rcases r with ⟨pe, parts⟩
  cases pe <;> cases d <;> rfl

/-- Defaulting `MaxFileSize` does not touch the allow-list. -/
theorem updated_allowed_types (t : Tools) :
    (if t.MaxFileSize = 0 then { t with MaxFileSize := defaultMaxFileSize } else t).AllowedFileTypes
      = t.AllowedFileTypes := by
  split <;> rfl

/-- Lemma: `UploadFiles` on a parts list whose first failing part is `bad` (with
parse and directory creation succeeding): the empty slice and `bad`'s error. -/
theorem UploadFiles_first_fail (t : Tools) (pre : List FilePart) (bad : FilePart)
    (post : List FilePart) (tokens : List String) (rn : List Bool) (e : String)
    (hpre : ∀ q ∈ pre, partError t.AllowedFileTypes q = none)
    (hbad : partError t.AllowedFileTypes bad = some e) :
    (UploadFiles t ⟨false, pre ++ bad :: post⟩ none tokens rn).2 = ([], some e) := by
  have hAF := updated_allowed_types t
  simp only [UploadFiles]
  exact uploadLoop_first_fail _ _ e pre bad post tokens []
    (fun q hq => by rw [hAF]; exact hpre q hq) (by rw [hAF]; exact hbad)

/-- Claim C1 is false as stated: with two parts of which the first persists
(alone it yields its record) and the second fails while copying, the call
returns the empty slice with the error — not the record of the part
persisted before the failure. -/
theorem C1_counterexample :
    processPart { } true "tok1"
        { filename := "a.jpg", sniffedType := "image/jpeg", size := 3 }
      = .ok { NewFileName := "tok1.jpg", OriginalFileName := "a.jpg", FileSize := 3 } ∧
    (UploadFiles { }
        { parseErr := false
          parts := [{ filename := "a.jpg", sniffedType := "image/jpeg", size := 3 },
                    { filename := "b.jpg", sniffedType := "image/jpeg", size := 5,
                      copyErr := some "copy error" }] }
        none ["tok1", "tok2"] []).2
      = ([], some "copy error") ∧
    (UploadFiles { }
        { parseErr := false
          parts := [{ filename := "a.jpg", sniffedType := "image/jpeg", size := 3 }] }
        none ["tok1"] []).2
      = ([{ NewFileName := "tok1.jpg", OriginalFileName := "a.jpg", FileSize := 3 }], none) ∧
    ([] : List UploadedFile)
      ≠ [{ NewFileName := "tok1.jpg", OriginalFileName := "a.jpg", FileSize := 3 }] :=
  ⟨rfl, rfl, rfl, by decide⟩

/-- Claim C1, amended: on any per-file error `UploadFiles` returns the
EMPTY record slice alongside the error (the records persisted before the
failing part are discarded, because the per-part closure returns `nil` into
the accumulator), and stops at the first failing part — parts after it are
never processed and do not affect the result. -/
theorem C1_fail_fast_discards_records (t t' : Tools) (r : MultipartRequest)
    (dres : Option String) (tokens : List String) (rn : List Bool)
    (res : List UploadedFile) (e : String) :
    (UploadFiles t r dres tokens rn = (t', (res, some e)) → res = []) ∧
    (∀ pre bad post,
      r.parseErr = false → dres = none → r.parts = pre ++ bad :: post →
      (∀ q ∈ pre, partError t.AllowedFileTypes q = none) →
      partError t.AllowedFileTypes bad = some e →
      (UploadFiles t r dres tokens rn).2 = ([], some e)) := by
  constructor
  · intro h
    rcases r with ⟨pe, parts⟩
    cases pe with
    | true =>
      simp only [UploadFiles] at h
      injection h with h1 h2
      injection h2 with h3 h4
      exact h3.symm
    | false =>
      cases dres with
      | some d =>
        simp only [UploadFiles] at h
        injection h with h1 h2
        injection h2 with h3 h4
        exact h3.symm
      | none =>
        simp only [UploadFiles] at h
        injection h with h1 h2
        exact uploadLoop_error_nil _ _ parts tokens [] res e (by rw [h2])
  · intro pre bad post hpe hd hparts hpre hbad
    rcases r with ⟨pe, parts⟩
    simp only at hpe hparts
    subst hpe hd hparts
    exact UploadFiles_first_fail t pre bad post tokens rn e hpre hbad

/-- Witness for `C1_fail_fast_discards_records`: the concrete two-part batch
of `C1_counterexample` instantiates both conjuncts. -/
theorem C1_fail_fast_discards_records_witness :
    ([] : List UploadedFile) = [] ∧
    (UploadFiles { }
        { parseErr := false
          parts := [{ filename := "a.jpg", sniffedType := "image/jpeg", size := 3 },
                    { filename := "b.jpg", sniffedType := "image/jpeg", size := 5,
                      copyErr := some "copy error" }] }
        none ["tok1", "tok2"] []).2
      = ([], some "copy error") := by
  constructor
  · exact (C1_fail_fast_discards_records { } { MaxFileSize := 1073741824 }
      { parseErr := false
        parts := [{ filename := "a.jpg", sniffedType := "image/jpeg", size := 3 },
                  { filename := "b.jpg", sniffedType := "image/jpeg", size := 5,
                    copyErr := some "copy error" }] }
      none ["tok1", "tok2"] [] [] "copy error").1 rfl
  · exact (C1_fail_fast_discards_records { } { MaxFileSize := 1073741824 }
      { parseErr := false
        parts := [{ filename := "a.jpg", sniffedType := "image/jpeg", size := 3 },
                  { filename := "b.jpg", sniffedType := "image/jpeg", size := 5,
                    copyErr := some "copy error" }] }
      none ["tok1", "tok2"] [] [] "copy error").2
      [{ filename := "a.jpg", sniffedType := "image/jpeg", size := 3 }]
      { filename := "b.jpg", sniffedType := "image/jpeg", size := 5,
        copyErr := some "copy error" }
      [] rfl rfl rfl (by decide) (by decide)

/-- Claim C6: with an empty `AllowedFileTypes` every sniffed content type is
accepted; with a non-empty list a part is accepted exactly when its sniffed
type `EqualFold`-matches one of the allowed values; and a non-matching part
(whose open and sniff-read succeeded) fails the whole operation with the
`uploaded file type is not permitted` error, stopping before later parts. -/
theorem C6_allow_list (t : Tools) (allowed : List String) (ft : String)
    (p : FilePart) (rf : Bool) (tok : String) :
    isAllowedType [] ft = true ∧
    (allowed ≠ [] →
      (isAllowedType allowed ft = true ↔ ∃ a ∈ allowed, eqFold ft a = true)) ∧
    (p.openErr = none → p.readErr = none →
      isAllowedType t.AllowedFileTypes p.sniffedType = false →
      processPart t rf tok p = .error "uploaded file type is not permitted") ∧
    (∀ pre post tokens rn,
      (∀ q ∈ pre, partError t.AllowedFileTypes q = none) →
      p.openErr = none → p.readErr = none →
      isAllowedType t.AllowedFileTypes p.sniffedType = false →
      (UploadFiles t ⟨false, pre ++ p :: post⟩ none tokens rn).2
        = ([], some "uploaded file type is not permitted")) := by
  have hperr : p.openErr = none → p.readErr = none →
      isAllowedType t.AllowedFileTypes p.sniffedType = false →
      partError t.AllowedFileTypes p = some "uploaded file type is not permitted" := by
    intro ho hr ha
    simp [partError, ho, hr, ha]
  refine ⟨by simp [isAllowedType], ?_, ?_, ?_⟩
  · intro hne
    rw [isAllowedType, if_pos (by cases allowed with
      | nil => exact absurd rfl hne
      | cons a as => simp)]
    exact List.any_eq_true
  · intro ho hr ha
    exact (processPart_partError t rf tok p).1 _ (hperr ho hr ha)
  · intro pre post tokens rn hpre ho hr ha
    exact UploadFiles_first_fail t pre p post tokens rn _ hpre (hperr ho hr ha)

/-- Witness for `C6_allow_list`: a concrete `image/gif` part against the
allow-list `["image/png", "IMAGE/JPEG"]` is rejected and fails the batch. -/
theorem C6_allow_list_witness :
    (isAllowedType ["image/png", "IMAGE/JPEG"] "image/jpeg" = true ↔
      ∃ a ∈ ["image/png", "IMAGE/JPEG"], eqFold "image/jpeg" a = true) ∧
    processPart { AllowedFileTypes := ["image/png", "IMAGE/JPEG"] } true "tok"
        { filename := "x.gif", sniffedType := "image/gif", size := 7 }
      = .error "uploaded file type is not permitted" ∧
    (UploadFiles { AllowedFileTypes := ["image/png", "IMAGE/JPEG"] }
        ⟨false, [{ filename := "a.png", sniffedType := "image/png", size := 1 },
                 { filename := "x.gif", sniffedType := "image/gif", size := 7 },
                 { filename := "b.png", sniffedType := "image/png", size := 2 }]⟩
        none ["t1", "t2", "t3"] []).2
      = ([], some "uploaded file type is not permitted") := by
  refine ⟨(C6_allow_list { } ["image/png", "IMAGE/JPEG"] "image/jpeg"
      { filename := "x.gif", sniffedType := "image/gif", size := 7 } true "tok").2.1
      (by decide), ?_, ?_⟩
  · exact (C6_allow_list { AllowedFileTypes := ["image/png", "IMAGE/JPEG"] }
      [] "" { filename := "x.gif", sniffedType := "image/gif", size := 7 } true "tok").2.2.1
      rfl rfl (by decide)
  · exact (C6_allow_list { AllowedFileTypes := ["image/png", "IMAGE/JPEG"] }
      [] "" { filename := "x.gif", sniffedType := "image/gif", size := 7 } true "tok").2.2.2
      [{ filename := "a.png", sniffedType := "image/png", size := 1 }]
      [{ filename := "b.png", sniffedType := "image/png", size := 2 }]
      ["t1", "t2", "t3"] [] (by decide) rfl rfl (by decide)

/-- Claim C7 is right about the intent but the code violates it: on a
multipart request containing zero file parts, `UploadFiles` returns the nil
slice with no error, and `UploadFile` then evaluates `uploadedFiles[0]`,
which is a Go runtime panic — an uncaught fault, not an error value. -/
theorem C7_zero_parts_panic :
    (UploadFiles { } { parseErr := false, parts := [] } none [] []).2 = ([], none) ∧
    (UploadFile { } { parseErr := false, parts := [] } none [] []).2
      = .panic "runtime error: index out of range [0] with length 0" :=
  ⟨rfl, rfl⟩

/-- Claim C10: `UploadFiles` (and `UploadFile`) on a receiver whose
`MaxFileSize` is 0 sets it to the 1 GiB default `1073741824`, which persists
for subsequent calls; every other configuration field is left unchanged, and
a non-zero `MaxFileSize` is kept as is. -/
theorem C10_config_mutation (t : Tools) (r r2 : MultipartRequest) (d d2 : Option String)
    (toks toks2 : List String) (rn rn2 : List Bool) :
    ((UploadFiles t r d toks rn).1.MaxFileSize
      = if t.MaxFileSize = 0 then 1073741824 else t.MaxFileSize) ∧
    (UploadFiles t r d toks rn).1.AllowedFileTypes = t.AllowedFileTypes ∧
    (UploadFiles t r d toks rn).1.MaxJSONSize = t.MaxJSONSize ∧
    (UploadFiles t r d toks rn).1.JSONAllowUnknownFields = t.JSONAllowUnknownFields ∧
    (t.MaxFileSize = 0 →
      (UploadFiles (UploadFiles t r d toks rn).1 r2 d2 toks2 rn2).1.MaxFileSize
        = 1073741824) ∧
    (UploadFile t r d toks rn).1 = (UploadFiles t r d toks rn).1 := by
  have hfst := UploadFiles_fst t r d toks rn
  refine ⟨?_, ?_, ?_, ?_, ?_, ?_⟩
  · rw [hfst]
    split <;> rfl
  · rw [hfst]
    exact updated_allowed_types t
  · rw [hfst]
    split <;> rfl
  · rw [hfst]
    split <;> rfl
  · intro h0
    rw [UploadFiles_fst, hfst, if_pos h0]
    have : ({ t with MaxFileSize := defaultMaxFileSize } : Tools).MaxFileSize
        = defaultMaxFileSize := rfl
    rw [if_neg (by rw [this]; norm_num [defaultMaxFileSize])]
    rfl
  · simp only [UploadFile]
    rcases h2 : (UploadFiles t r d toks [rn.headD true]).2.2 with _ | e
    · rcases h1 : (UploadFiles t r d toks [rn.headD true]).2.1 with _ | ⟨f, fs⟩ <;>
        simp [h2, h1, UploadFiles_fst t r d toks, hfst]
    · simp [h2, UploadFiles_fst t r d toks, hfst]

/-- Witness for `C10_config_mutation`: starting from the zero configuration,
two successive calls leave `MaxFileSize` at the 1 GiB default. -/
theorem C10_config_mutation_witness :
    (UploadFiles (UploadFiles { } ⟨false, []⟩ none [] []).1 ⟨false, []⟩ none [] []).1.MaxFileSize
      = 1073741824 :=
  (C10_config_mutation { } ⟨false, []⟩ ⟨false, []⟩ none none [] [] [] []).2.2.2.2.1 rfl

/-! ## Lemmas about the JSON codec, remote pusher and static file download -/

/-- Claim C3: after a successful first decode, `ReadJSON` attempts a second
decode; any outcome other than `io.EOF` — a successful second decode or any
other error, e.g. trailing garbage — yields the multiple-values error, whose
message is `body must contain exactly one JSON object`; the call returns no
error exactly when the second decode reports end-of-stream. -/
theorem C3_single_json_value (t : Tools) (addr : Nat) (d2 : Option GoError) :
    (ReadJSON t addr none d2 = none ↔ ∃ e2, d2 = some e2 ∧ e2.isEOF = true) ∧
    (∀ e2, d2 = some e2 → e2.isEOF = false →
      ReadJSON t addr none d2 = some .multipleValues) ∧
    (d2 = none → ReadJSON t addr none d2 = some .multipleValues) ∧
    RJError.render .multipleValues = "body must contain exactly one JSON object" := by
  refine ⟨?_, ?_, ?_, rfl⟩
  · cases d2 with
    | none => simp [ReadJSON]
    | some e2 => cases he : e2.isEOF <;> simp [ReadJSON, he]
  · intro e2 hd2 he
    subst hd2
    simp [ReadJSON, he]
  · intro hd2
    subst hd2
    simp [ReadJSON]

/-- Witness for `C3_single_json_value`: a second decode that finds another
value (no error) and one that hits `io.EOF`. -/
theorem C3_single_json_value_witness :
    ReadJSON { } 0 none none = some .multipleValues ∧
    ReadJSON { } 0 none (some { msg := "EOF", isEOF := true }) = none := by
  constructor
  · exact (C3_single_json_value { } 0 none).2.2.1 rfl
  · exact (C3_single_json_value { } 0 (some { msg := "EOF", isEOF := true })).1.mpr
      ⟨{ msg := "EOF", isEOF := true }, rfl, rfl⟩

/-- Claim C2 is right that a wrong-typed value with a known field should
name the field, but the code prints the ADDRESS of the field instead: it
formats `&unmarshalTypeError.Field` (a `*string`) with `%v`, so for the
failing input `{"foo": 1}` decoded into a struct with string field `foo`
the message embeds a pointer rendering `0x…` and never equals the message
containing the field name. -/
theorem C2_type_mismatch_prints_address (t : Tools) (addr : Nat) (off : Int)
    (msg : String) (d2 : Option GoError) :
    ReadJSON t addr (some { msg := msg, asTypeError := some ("foo", off) }) d2
      = some (.typeMismatchField (ptrRender addr)) ∧
    (RJError.typeMismatchField (ptrRender addr)).render
      = "body contains incorrect JSON type for field " ++ ptrRender addr ∧
    (ptrRender addr).toList.head? = some '0' ∧
    ptrRender addr ≠ "foo" := by
  refine ⟨by simp [ReadJSON, mapDecodeErr], rfl, rfl, ?_⟩
  intro h
  have hd : ('0' :: 'x' :: Nat.toDigits 16 addr) = ['f', 'o', 'o'] :=
    congrArg String.data h
  have h0 : ('0' : Char) = 'f' := (List.cons.injEq _ _ _ _ ▸ hd).1
  exact absurd h0 (by decide)

/-- Claim C8 is false as stated: on a successful POST the deferred
`response.Body.Close()` runs before `PushJSONToRemote` returns, so the
response handed to the caller has its body closed, not open. -/
theorem C8_counterexample :
    PushJSONToRemote none none (.ok { StatusCode := 200, bodyOpen := true })
      = .ok { StatusCode := 200, bodyOpen := false } 200 ∧
    ({ StatusCode := 200, bodyOpen := false } : HTTPResponse).bodyOpen ≠ true :=
  ⟨rfl, by decide⟩

/-- Claim C8, amended: `PushJSONToRemote` closes the response body before
returning — on a successful POST the caller receives the response with its
body already closed (and the status code copied out), while marshal,
request-construction and transport errors are passed through. -/
theorem C8_push_closes_body (resp : HTTPResponse) (me re de : String)
    (nre : Option String) (dr : Except String HTTPResponse) :
    PushJSONToRemote none none (.ok resp)
      = .ok { resp with bodyOpen := false } resp.StatusCode ∧
    ({ resp with bodyOpen := false } : HTTPResponse).bodyOpen = false ∧
    PushJSONToRemote (some me) nre dr = .err me ∧
    PushJSONToRemote none (some re) dr = .err re ∧
    PushJSONToRemote none none (.error de) = .err de :=
  ⟨rfl, rfl, rfl, rfl, rfl⟩

/-- Lemma: `queryEscapeByte` and `specPercentEncodeByte` agree on byte lists with
no byte needing the space rule. -/
theorem flatMap_escape_eq (l : List Nat) (h : ∀ b ∈ l, queryUnreserved b = true) :
    l.flatMap queryEscapeByte = l.flatMap specPercentEncodeByte := by
  induction l with
  | nil => rfl
  | cons b bs ih =>
    have hb := h b (by simp)
    have h32 : (b == 32) = false := by
      cases hc : b == 32
      · rfl
      · exfalso
        have hb32 : b = 32 := by simpa using hc
        rw [hb32] at hb
        simp [queryUnreserved] at hb
    rw [List.flatMap_cons, List.flatMap_cons, ih fun x hx => h x (by simp [hx])]
    simp [queryEscapeByte, specPercentEncodeByte, h32, hb]

/-- Claim C9 is false as stated: `DownloadStaticFile` escapes the display
name with `url.QueryEscape`, which encodes a space as `'+'`, whereas the
percent-encoding of a space is `%20`; for displayName `"a b"` the header is
`attachment; filename="a+b"`, not `attachment; filename="a%20b"`. -/
theorem C9_counterexample :
    (DownloadStaticFile "./testdata" "cat.jpg" "a b").contentDisposition
      = "attachment; filename=\"a+b\"" ∧
    specPercentEncode "a b" = "a%20b" ∧
    ("attachment; filename=\"a+b\"" : String) ≠ "attachment; filename=\"a%20b\"" :=
  ⟨rfl, rfl, by decide⟩

/-- Claim C9, amended: for every displayName, `DownloadStaticFile` sets the
`Content-Disposition` header to exactly
`attachment; filename="<url.QueryEscape displayName>"` before serving the
file at `directory/storedFileName`; `QueryEscape` coincides with
percent-encoding exactly on names all of whose bytes are unreserved (in
particular, space-free names). -/
theorem C9_download_header (path fileName displayName : String) :
    (DownloadStaticFile path fileName displayName).contentDisposition
      = "attachment; filename=\"" ++ QueryEscape displayName ++ "\"" ∧
    (DownloadStaticFile path fileName displayName).servedPath
      = goPathJoin path fileName ∧
    ((∀ b ∈ utf8Bytes displayName, queryUnreserved b = true) →
      QueryEscape displayName = specPercentEncode displayName) := by
  refine ⟨rfl, rfl, ?_⟩
  intro hall
  unfold QueryEscape specPercentEncode
  rw [flatMap_escape_eq _ hall]

/-- Witness for `C9_download_header` at the space-free name `"image.jpg"`. -/
theorem C9_download_header_witness :
    QueryEscape "image.jpg" = specPercentEncode "image.jpg" :=
  (C9_download_header "./testdata" "cat.jpg" "image.jpg").2.2 (by decide)

end Toolkit
